import Mathlib

/-!
Verification of the hook86 runtime binary-patching engine.

The definitions below are a shallow embedding of the Rust sources:
* `src/hook86/src/asm.rs`   — branch decoder / encoder (`get_branch_target`,
  `get_absolute_from_rel32`, `get_absolute_from_rel8`, `addr_offset`, `call`,
  `jmp`, `jz`, `jl`, `jge`, `push`);
* `src/hook86/src/patch.rs` — `PatchPlaceholder::set_value`;
* `src/hook86_macro/src/lib.rs` — the patch-template compiler (component
  parsing, sizes, field offsets, initial bytes, generated `bind`);
* `src/hook86/src/mem.rs`   — `ByteSearcher::search_in_ranges` /
  `find_bytes_in_ranges`.

The target is 32-bit x86, so `usize`/`IntPtr` is 32 bits wide: machine
integers are modelled as `Nat` reduced modulo `2^32` where the machine
wraps, and signed reads are made explicit with sign-extension into `Int`.
Process memory is modelled as a function `Nat → Nat` giving the byte at
each address; the OS region-query primitive (`VirtualQuery`) is an oracle
`Nat → Option MemRegion`.
-/

/-- `2^32`, the modulus of 32-bit machine arithmetic. -/
def U32MOD : Nat := 4294967296

/-- Reduce an integer into `[0, 2^32)` — the value a 32-bit register holds. -/
def wrap32 (i : Int) : Nat := (i % (U32MOD : Int)).toNat

/-- Sign-extend a byte (`b < 256`) to an integer, as reading an `i8` does. -/
def sext8 (b : Nat) : Int := if b < 128 then (b : Int) else (b : Int) - 256

/-- Sign-extend a 32-bit value to an integer, as reading an `i32`/`isize` does. -/
def sext32 (v : Nat) : Int := if v < 2147483648 then (v : Int) else (v : Int) - U32MOD

/-- The little-endian bytes of the low 32 bits of `v` (`u32::to_le_bytes`). -/
def le32 (v : Nat) : List Nat :=
  [v % 256, v / 256 % 256, v / 65536 % 256, v / 16777216 % 256]

/-- Read a 32-bit little-endian value from memory at `a`
(`std::ptr::read_unaligned` of a 4-byte quantity). -/
def read32 (mem : Nat → Nat) (a : Nat) : Nat :=
  mem a + mem (a + 1) * 256 + mem (a + 2) * 65536 + mem (a + 3) * 16777216

/-- A memory in which the byte list `bs` is placed starting at address `a`
(and all other bytes are zero). -/
def listMem (a : Nat) (bs : List Nat) : Nat → Nat :=
  fun i => bs.getD (i - a) 0

/-- `UnexpectedOpcodeError` from `asm.rs` (the pointer is the address). -/
inductive UnexpectedOpcodeError where
  | SingleByteOpcode (ptr : Nat) (opcode : Nat)
  | DoubleByteOpcode (ptr : Nat) (opcode1 : Nat) (opcode2 : Nat)
deriving DecidableEq, Repr

deriving instance DecidableEq for Except

/-- `get_absolute_from_rel32::<N>` from `asm.rs`: read the `isize` stored at
`ptr + N - 4`, add `N`, and offset the pointer by the result (32-bit
pointer arithmetic wraps). -/
def get_absolute_from_rel32 (N : Nat) (mem : Nat → Nat) (a : Nat) : Nat :=
  wrap32 ((a : Int) + (sext32 (read32 mem (a + N - 4)) + N))

/-- `get_absolute_from_rel8` from `asm.rs`: read the `i8` at `ptr + 1` and
offset the pointer by it.  (Note: the source offsets from `ptr`, the start
of the instruction — it does not add the instruction length 2.) -/
def get_absolute_from_rel8 (mem : Nat → Nat) (a : Nat) : Nat :=
  wrap32 ((a : Int) + sext8 (mem (a + 1)))

/-- The one-byte opcodes dispatched to `get_absolute_from_rel8` in
`get_branch_target` (`asm.rs` line 64), in source order. -/
def shortJumpOpcodes : List Nat :=
  [0xEB, 0x77, 0x73, 0x72, 0x76, 0xE3, 0x74, 0x7F, 0x7D, 0x7C, 0x71, 0x7B,
   0x79, 0x75, 0x70, 0x7A, 0x78]

/-- The second bytes accepted after the `0x0F` prefix in `get_branch_target`
(`asm.rs` line 69), in source order. -/
def nearCondSubOpcodes : List Nat :=
  [0x84, 0x8C, 0x8D, 0x87, 0x83, 0x82, 0x86, 0x8F, 0x8E, 0x85, 0x8B, 0x81,
   0x89, 0x80, 0x8A, 0x88]

/-- `get_branch_target` from `asm.rs`: dispatch on the opcode byte at `a`. -/
def get_branch_target (mem : Nat → Nat) (a : Nat) :
    Except UnexpectedOpcodeError Nat :=
  let opcode := mem a
  if opcode = 0xE8 ∨ opcode = 0xE9 then
    .ok (get_absolute_from_rel32 5 mem a)
  else if opcode = 0x9A ∨ opcode = 0xEA then
    .ok (read32 mem (a + 1))
  else if opcode ∈ shortJumpOpcodes then
    .ok (get_absolute_from_rel8 mem a)
  else if opcode = 0x0F then
    let sub_opcode := mem (a + 1)
    if sub_opcode ∈ nearCondSubOpcodes then
      .ok (get_absolute_from_rel32 6 mem a)
    else
      .error (.DoubleByteOpcode a opcode sub_opcode)
  else
    .error (.SingleByteOpcode a opcode)

/-- `addr_offset::<N>` from `asm.rs`: `to.overflowing_sub(from + N).0` as
little-endian bytes (the 32-bit `usize` addition `from + N` wraps). -/
def addr_offset (N fromA toA : Nat) : List Nat :=
  le32 (wrap32 ((toA : Int) - ((fromA + N) % U32MOD)))

/-- `call` from `asm.rs`: `0xE8` followed by the rel32 displacement. -/
def call (fromA toA : Nat) : List Nat := 0xE8 :: addr_offset 5 fromA toA

/-- `jmp` from `asm.rs`: `0xE9` followed by the rel32 displacement. -/
def jmp (fromA toA : Nat) : List Nat := 0xE9 :: addr_offset 5 fromA toA

/-- `cond_jmp` from `asm.rs`: `0x0F`, the condition byte, then rel32. -/
def cond_jmp (fromA toA cond : Nat) : List Nat :=
  0x0F :: cond :: addr_offset 6 fromA toA

/-- `jz` from `asm.rs`. -/
def jz (fromA toA : Nat) : List Nat := cond_jmp fromA toA 0x84

/-- `jl` from `asm.rs`. -/
def jl (fromA toA : Nat) : List Nat := cond_jmp fromA toA 0x8C

/-- `jge` from `asm.rs`. -/
def jge (fromA toA : Nat) : List Nat := cond_jmp fromA toA 0x8D

/-- `push` from `asm.rs`: `0x68` followed by the immediate, little-endian. -/
def push (imm : Nat) : List Nat := 0x68 :: le32 imm

/-- `PatchPlaceholder` from `patch.rs`: buffer offset of the 4-byte field,
relativity flag, and the last value passed to `set_value`. -/
structure PatchPlaceholder where
  offset : Nat
  is_relative : Bool
  value : Option Nat
deriving DecidableEq, Repr

/-- The slice store `buf[off..off + bytes.length].copy_from_slice(bytes)`:
position `i` of the result holds `bytes[i - off]` inside the stored window
and the old byte elsewhere.  (The callers below always have
`off + bytes.length ≤ buf.length`, the bound Rust enforces.) -/
def writeBytes (buf : List Nat) (off : Nat) (bs : List Nat) : List Nat :=
  (List.range buf.length).map
    (fun i => if off ≤ i ∧ i < off + bs.length then bs.getD (i - off) 0 else buf.getD i 0)

/-- `PatchPlaceholder::set_value` from `patch.rs`: record the value; if the
placeholder is relative, store the 32-bit wraparound difference from the
field's own end address (`buf_addr + offset + PTR_SIZE`, a `u32`),
little-endian; otherwise store the value itself little-endian. -/
def PatchPlaceholder.set_value (p : PatchPlaceholder) (bufAddr : Nat) (buf : List Nat)
    (value : Nat) : PatchPlaceholder × List Nat :=
  let value_bytes :=
    if p.is_relative then
      le32 (wrap32 ((value : Int) - ((bufAddr + p.offset + 4) % U32MOD)))
    else
      le32 value
  ({ p with value := some value }, writeBytes buf p.offset value_bytes)

/-- The 4 bytes `set_value` stores, phrased as the spec phrases them
(relative: `value − (bufferBaseAddress + offset + 4)` with 32-bit
wraparound; absolute: the value itself), little-endian. -/
def placeholderBytes (bufAddr : Nat) (p : PatchPlaceholder) (value : Nat) : List Nat :=
  if p.is_relative then
    le32 (wrap32 ((value : Int) - ((bufAddr : Int) + (p.offset : Int) + 4)))
  else
    le32 value

/-- Two placeholders whose 4-byte fields do not overlap. -/
def disjointFields (p q : PatchPlaceholder) : Prop :=
  p.offset + 4 ≤ q.offset ∨ q.offset + 4 ≤ p.offset

instance : DecidableRel disjointFields := fun p q =>
  inferInstanceAs (Decidable (p.offset + 4 ≤ q.offset ∨ q.offset + 4 ≤ p.offset))

/-- A token of the `patch!` macro body (`hook86_macro/src/lib.rs`): an
unsigned byte literal or an identifier. -/
inductive PatchToken where
  | lit (b : Nat)
  | ident (s : String)
deriving DecidableEq, Repr

/-- `PatchComponent` from `hook86_macro/src/lib.rs`. -/
inductive PatchComponent where
  | Bytes (bytes : List Nat)
  | Rel32 (opcode : List Nat) (name : String)
  | Imm32 (name : String)
deriving DecidableEq, Repr

/-- `PatchComponent::size`. -/
def PatchComponent.size : PatchComponent → Nat
  | .Bytes bytes => bytes.length
  | .Rel32 opcode _ => opcode.length + 4
  | .Imm32 _ => 4

/-- The zero-operand pseudo-instructions of the macro parser
(`pushad`/`popad`/`ret`/`retn`), which expand to one literal byte. -/
def pseudoByte (s : String) : Option Nat :=
  if s = "pushad" then some 0x60
  else if s = "popad" then some 0x61
  else if s = "ret" ∨ s = "retn" then some 0xC3
  else none

/-- The mnemonic table of the macro parser: for an instruction identifier
and its target name, the bytes pushed onto the pending literal buffer and
the component produced.  `none` is the "Invalid or unsupported
instruction" definition-time error. -/
def mkComponent (s target : String) : Option (List Nat × PatchComponent) :=
  if s = "imm32" then some ([], .Imm32 target)
  else if s = "rel32" then some ([], .Rel32 [] target)
  else if s = "call" then some ([], .Rel32 [0xE8] target)
  else if s = "jmp" then some ([], .Rel32 [0xE9] target)
  else if s = "jz" ∨ s = "je" then some ([], .Rel32 [0x0F, 0x84] target)
  else if s = "jl" ∨ s = "jnge" then some ([], .Rel32 [0x0F, 0x8C] target)
  else if s = "jge" ∨ s = "jnl" then some ([], .Rel32 [0x0F, 0x8D] target)
  else if s = "ja" ∨ s = "jnbe" then some ([], .Rel32 [0x0F, 0x87] target)
  else if s = "jae" ∨ s = "jnb" ∨ s = "jnc" then some ([], .Rel32 [0x0F, 0x83] target)
  else if s = "jb" ∨ s = "jc" ∨ s = "jnae" then some ([], .Rel32 [0x0F, 0x82] target)
  else if s = "jbe" ∨ s = "jna" then some ([], .Rel32 [0x0F, 0x86] target)
  else if s = "jg" ∨ s = "jnle" then some ([], .Rel32 [0x0F, 0x8F] target)
  else if s = "jle" ∨ s = "jng" then some ([], .Rel32 [0x0F, 0x8E] target)
  else if s = "jne" ∨ s = "jnz" then some ([], .Rel32 [0x0F, 0x85] target)
  else if s = "jno" then some ([], .Rel32 [0x0F, 0x81] target)
  else if s = "jnp" ∨ s = "jpo" then some ([], .Rel32 [0x0F, 0x8B] target)
  else if s = "jns" then some ([], .Rel32 [0x0F, 0x89] target)
  else if s = "jo" then some ([], .Rel32 [0x0F, 0x80] target)
  else if s = "jp" ∨ s = "jpe" then some ([], .Rel32 [0x0F, 0x8A] target)
  else if s = "js" then some ([], .Rel32 [0x0F, 0x88] target)
  else if s = "push" then some ([0x68], .Imm32 target)
  else none

/-- The component-parsing loop of `Patch::parse` in
`hook86_macro/src/lib.rs`: literals accumulate in a pending buffer; a
pseudo-instruction appends its byte and continues; any other identifier
consumes a target identifier, flushes the pending buffer (plus `push`'s
`0x68`) as a `Bytes` component, and emits the instruction's component.
`none` is a parse error. -/
def parseComponents : List PatchToken → List Nat → Option (List PatchComponent)
  | [], cur => some (if cur = [] then [] else [.Bytes cur])
  | .lit b :: rest, cur => parseComponents rest (cur ++ [b])
  | [.ident s], cur =>
    match pseudoByte s with
    | some b => some (if cur ++ [b] = [] then [] else [.Bytes (cur ++ [b])])
    | none => none
  | .ident s :: t :: rest, cur =>
    match pseudoByte s with
    | some b => parseComponents (t :: rest) (cur ++ [b])
    | none =>
      match t with
      | .ident target =>
        match mkComponent s target with
        | some (extra, comp) =>
          match parseComponents rest [] with
          | some comps =>
            some ((if cur ++ extra = [] then [] else [.Bytes (cur ++ extra)]) ++ comp :: comps)
          | none => none
        | none => none
      | .lit _ => none

/-- Total patch size: the sum of the component sizes
(`components.iter().map(PatchComponent::size).sum()`). -/
def patchSize (comps : List PatchComponent) : Nat :=
  (comps.map PatchComponent.size).sum

/-- The initial buffer contents (`buf_tokens`): literal bytes verbatim,
rel32 components as their opcode bytes plus four zero bytes, imm32
components as four zero bytes. -/
def initBytes : List PatchComponent → List Nat
  | [] => []
  | .Bytes bs :: rest => bs ++ initBytes rest
  | .Rel32 opcode _ :: rest => opcode ++ [0, 0, 0, 0] ++ initBytes rest
  | .Imm32 _ :: rest => [0, 0, 0, 0] ++ initBytes rest

/-- The per-placeholder `(name, field offset, relativity)` table computed by
the `patch` macro: the field offset of a `Rel32` component skips its opcode
bytes; an `Imm32` field sits at the component offset. -/
def fieldTable : List PatchComponent → Nat → List (String × Nat × Bool)
  | [], _ => []
  | .Bytes bs :: rest, off => fieldTable rest (off + bs.length)
  | .Rel32 opcode name :: rest, off =>
    (name, off + opcode.length, true) :: fieldTable rest (off + opcode.length + 4)
  | .Imm32 name :: rest, off => (name, off, false) :: fieldTable rest (off + 4)

/-- A runtime patch instance generated by the `patch` macro: the byte
buffer and the placeholders in declaration order. -/
structure PatchInstance where
  buf : List Nat
  placeholders : List PatchPlaceholder
deriving DecidableEq, Repr

/-- An error returned by the Memory-Protection Service
(`windows::core::Error` in the source). -/
structure ProtectionError where
  code : Nat
deriving DecidableEq, Repr

/-- The placeholder-writing half of the generated `bind`:
`self.field.set_value(&mut self.__buf, value)` for each placeholder in
declaration order. -/
def writePlaceholders (bufAddr : Nat) :
    List PatchPlaceholder → List Nat → List Nat → List PatchPlaceholder × List Nat
  | [], _, buf => ([], buf)
  | ps, [], buf => (ps, buf)
  | p :: ps, v :: vs, buf =>
    ((p.set_value bufAddr buf v).1 ::
        (writePlaceholders bufAddr ps vs (p.set_value bufAddr buf v).2).1,
      (writePlaceholders bufAddr ps vs (p.set_value bufAddr buf v).2).2)

/-- The generated `bind` method (`hook86_macro/src/lib.rs` lines 227-230):
write every placeholder, then call `unprotect(buf, size)` (the
Memory-Protection Service, here an oracle) and map a success to the
buffer's entry address `buf_raw()`. -/
def PatchInstance.bind (inst : PatchInstance)
    (unprot : Nat → Nat → Except ProtectionError Nat) (bufAddr : Nat)
    (values : List Nat) : PatchInstance × Except ProtectionError Nat :=
  let wp := writePlaceholders bufAddr inst.placeholders values inst.buf
  (⟨wp.2, wp.1⟩,
    match unprot bufAddr inst.buf.length with
    | .ok _ => .ok bufAddr
    | .error e => .error e)

/-- The token stream of the §8 example template
`0x29 0xD8; 0x38 0xF4 0x04; jz equal; jmp other; push value`
(the `TestPatch` template of `patch.rs`). -/
def exampleTokens : List PatchToken :=
  [.lit 0x29, .lit 0xD8, .lit 0x38, .lit 0xF4, .lit 0x04,
   .ident "jz", .ident "equal", .ident "jmp", .ident "other",
   .ident "push", .ident "value"]

/-- The compiled components of the example template. -/
def exampleComponents : List PatchComponent := (parseComponents exampleTokens []).getD []

/-- The example template's buffer size. -/
def examplePatchSize : Nat := patchSize exampleComponents

/-- The example template's placeholder table. -/
def exampleFieldTable : List (String × Nat × Bool) := fieldTable exampleComponents 0

/-- The example template's initial (zero-placeholder) buffer bytes. -/
def exampleInitBytes : List Nat := initBytes exampleComponents

/-- The example template's placeholders as constructed by the generated
`new` (`PatchPlaceholder::new(offset, relativity)`). -/
def examplePlaceholders : List PatchPlaceholder :=
  exampleFieldTable.map (fun e => ⟨e.2.1, e.2.2, none⟩)

/-- A fresh instance of the example patch type. -/
def exampleInstance : PatchInstance := ⟨exampleInitBytes, examplePlaceholders⟩

/-- A concrete base address for the example instance's buffer. -/
def exampleBufAddr : Nat := 0x80001000

/-- The example instance bound with the values of the `patch.rs` test
(`bind(0x80000000, 0x80000080, 1234)`) under a succeeding protection call. -/
def exampleBound : PatchInstance × Except ProtectionError Nat :=
  exampleInstance.bind (fun _ _ => .ok 0x04) exampleBufAddr
    [0x80000000, 0x80000080, 1234]

/-- The same bind under a protection call that fails with error code 5. -/
def exampleBoundFail : PatchInstance × Except ProtectionError Nat :=
  exampleInstance.bind (fun _ _ => .error ⟨5⟩) exampleBufAddr
    [0x80000000, 0x80000080, 1234]

/-- A `MEMORY_BASIC_INFORMATION` as the scanner uses it: base, size,
commit state and protection flags of the region containing the queried
address. -/
structure MemRegion where
  base : Nat
  size : Nat
  state : Nat
  protect : Nat
deriving DecidableEq, Repr

/-- `MEM_COMMIT`. -/
def MEM_COMMIT : Nat := 0x1000

/-- `PAGE_READONLY`. -/
def PAGE_READONLY : Nat := 0x02

/-- `PAGE_READWRITE`. -/
def PAGE_READWRITE : Nat := 0x04

/-- `PAGE_WRITECOPY`. -/
def PAGE_WRITECOPY : Nat := 0x08

/-- `PAGE_EXECUTE_READ`. -/
def PAGE_EXECUTE_READ : Nat := 0x20

/-- `PAGE_EXECUTE_READWRITE`. -/
def PAGE_EXECUTE_READWRITE : Nat := 0x40

/-- `PAGE_EXECUTE_WRITECOPY`. -/
def PAGE_EXECUTE_WRITECOPY : Nat := 0x80

/-- `READABLE_PROTECTION` from `mem.rs`: the union of all readable
protection flags. -/
def READABLE_PROTECTION : Nat :=
  PAGE_EXECUTE_READ ||| PAGE_READONLY ||| PAGE_READWRITE ||| PAGE_WRITECOPY |||
    PAGE_EXECUTE_WRITECOPY ||| PAGE_EXECUTE_READWRITE

/-- `PAGE_PROTECTION_FLAGS::contains`: all bits of `p` are set in `mask`. -/
def protContains (mask p : Nat) : Bool := (mask &&& p) == p

/-- The inner `while addr < end` loop of `ByteSearcher::search_in_ranges`:
query the region containing `addr` (`VirtualQuery`, the oracle); a failed
query breaks out of the range; a region that is not committed or fails the
protection filter is skipped; otherwise `search_func` runs on
`(addr, region_size)` and a `true` return short-circuits the entire
search.  The result carries the updated slots, the short-circuit flag, and
the trace of queried addresses; `fuel` bounds the iteration count (the
real loop terminates because `VirtualQuery` reports regions above `addr`). -/
def walkRange {α : Type} (query : Nat → Option MemRegion) (prot : Nat)
    (searchFunc : Nat → Nat → List α → List α × Bool) :
    Nat → Nat → Nat → List α → List α × Bool × List Nat
  | 0, _, _, results => (results, false, [])
  | fuel + 1, addr, endAddr, results =>
    if addr < endAddr then
      match query addr with
      | none => (results, false, [addr])
      | some info =>
        if info.state != MEM_COMMIT || !protContains prot info.protect then
          ((walkRange query prot searchFunc fuel (info.base + info.size) endAddr results).1,
            (walkRange query prot searchFunc fuel (info.base + info.size) endAddr results).2.1,
            addr :: (walkRange query prot searchFunc fuel (info.base + info.size) endAddr results).2.2)
        else
          if (searchFunc addr info.size results).2 then
            ((searchFunc addr info.size results).1, true, [addr])
          else
            ((walkRange query prot searchFunc fuel (info.base + info.size) endAddr
                (searchFunc addr info.size results).1).1,
              (walkRange query prot searchFunc fuel (info.base + info.size) endAddr
                (searchFunc addr info.size results).1).2.1,
              addr :: (walkRange query prot searchFunc fuel (info.base + info.size) endAddr
                (searchFunc addr info.size results).1).2.2)
    else (results, false, [])

/-- The outer `for range in ranges` loop of `search_in_ranges`: walk each
range; a short-circuited walk returns immediately, otherwise continue with
the updated slots.  Traces accumulate in query order. -/
def searchRanges {α : Type} (query : Nat → Option MemRegion) (prot : Nat)
    (searchFunc : Nat → Nat → List α → List α × Bool) (fuel : Nat) :
    List (Nat × Nat) → List α → List α × List Nat
  | [], results => (results, [])
  | (s, e) :: rest, results =>
    if (walkRange query prot searchFunc fuel s e results).2.1 then
      ((walkRange query prot searchFunc fuel s e results).1,
        (walkRange query prot searchFunc fuel s e results).2.2)
    else
      ((searchRanges query prot searchFunc fuel rest
          (walkRange query prot searchFunc fuel s e results).1).1,
        (walkRange query prot searchFunc fuel s e results).2.2 ++
          (searchRanges query prot searchFunc fuel rest
            (walkRange query prot searchFunc fuel s e results).1).2)

/-- `ByteSearcher::search_in_ranges`: a missing protection filter defaults
to `READABLE_PROTECTION`; `init` is the `[Default::default(); N]` result
array. -/
def search_in_ranges {α : Type} (query : Nat → Option MemRegion) (fuel : Nat)
    (protection : Option Nat) (ranges : List (Nat × Nat))
    (searchFunc : Nat → Nat → List α → List α × Bool) (init : List α) :
    List α × List Nat :=
  searchRanges query (protection.getD READABLE_PROTECTION) searchFunc fuel ranges init

/-- The bytes of a region starting at `base` with the given size. -/
def regionBytes (mem : Nat → Nat) (base size : Nat) : List Nat :=
  (List.range size).map (fun i => mem (base + i))

/-- `memchr::memmem::find`: index of the first occurrence of `needle` in
`hay`, if any. -/
def memFind (hay needle : List Nat) : Option Nat :=
  (List.range (hay.length + 1)).find? (fun i => needle.isPrefixOf (hay.drop i))

/-- The closure `find_bytes_in_ranges` passes to `search_in_ranges`: for
each still-unresolved pattern, search the region's bytes and record the
first absolute match address; report `true` when every slot is filled. -/
def findBytesStep (mem : Nat → Nat) (patterns : List (List Nat))
    (searchBase size : Nat) (addresses : List (Option Nat)) :
    List (Option Nat) × Bool :=
  let addresses2 := (patterns.zip addresses).map
    (fun pa =>
      match pa.2 with
      | some x => some x
      | none => (memFind (regionBytes mem searchBase size) pa.1).map
          (fun off => searchBase + off))
  (addresses2, addresses2.all Option.isSome)

/-- `ByteSearcher::find_bytes_in_ranges`: the multi-pattern search. -/
def find_bytes_in_ranges (mem : Nat → Nat) (query : Nat → Option MemRegion)
    (fuel : Nat) (patterns : List (List Nat)) (protection : Option Nat)
    (ranges : List (Nat × Nat)) : List (Option Nat) × List Nat :=
  search_in_ranges query fuel protection ranges (findBytesStep mem patterns)
    (patterns.map (fun _ => none))

/-- A concrete memory holding the one-byte pattern `AB` at `0x1008`
(inside the first test region). -/
def memAB : Nat → Nat := fun a => if a = 0x1008 then 0xAB else 0

/-- A concrete region-query oracle: region R1 = `[0x1000, 0x1010)` and
region R2 = `[0x1010, 0x1020)`, both committed and read-write. -/
def q1 : Nat → Option MemRegion := fun a =>
  if a < 0x1010 then some ⟨0x1000, 0x10, MEM_COMMIT, PAGE_READWRITE⟩
  else if a < 0x1020 then some ⟨0x1010, 0x10, MEM_COMMIT, PAGE_READWRITE⟩
  else none

/-- C1.  The claim states that for a leading byte in `{0xEB, 0xE3} ∪
[0x70, 0x7F]` the decoder returns `a + 2 + sext8(byte at a+1)`.  The code
omits the instruction length: `get_absolute_from_rel8` offsets from the
start of the instruction, so on the bytes `EB 10` at address `0x1000` it
returns `0x1010`, while the claimed (and x86-correct) target is `0x1012`.
This evaluates the embedded code at that failing input. -/
theorem c1_short_jump_decode_misses_instruction_length :
    get_branch_target (listMem 0x1000 [0xEB, 0x10]) 0x1000 = .ok 0x1010 ∧
    (0x1000 + 2 + 0x10 : Nat) = 0x1012 ∧
    get_branch_target (listMem 0x1000 [0xEB, 0x10]) 0x1000 ≠ .ok 0x1012 := by
  refine ⟨by decide, rfl, by decide⟩

/-- C5.  `call 0xFFFFFFFE 0x00000002` produces the 5-byte encoding whose
rel32 field is the 32-bit wraparound difference `to - (from + 5)`
(`= 0xFFFFFFFF`); the computation is total — no error, no overflow trap. -/
theorem c5_encode_call_wraparound :
    call 0xFFFFFFFE 0x00000002 = [0xE8, 0xFF, 0xFF, 0xFF, 0xFF] ∧
    wrap32 ((0x00000002 : Int) - (0xFFFFFFFE + 5)) = 0xFFFFFFFF := by
  refine ⟨by decide, by decide⟩

/-- Placing bytes at `a` and reading at `a + k` yields the `k`-th byte. -/
theorem listMem_at (a k : Nat) (bs : List Nat) : listMem a bs (a + k) = bs.getD k 0 := by
  unfold listMem
  rw [Nat.add_sub_cancel_left]

/-- Every wrapped value is a 32-bit value. -/
theorem wrap32_lt (i : Int) : wrap32 i < U32MOD := by
  unfold wrap32 U32MOD
  omega

/-- The bytes of a one-byte-opcode rel32 encoding, by position. -/
theorem getD_cons_le32 (op w : Nat) :
    ((op :: le32 w).getD 0 0 = op) ∧ ((op :: le32 w).getD 1 0 = w % 256) ∧
    ((op :: le32 w).getD 2 0 = w / 256 % 256) ∧
    ((op :: le32 w).getD 3 0 = w / 65536 % 256) ∧
    ((op :: le32 w).getD 4 0 = w / 16777216 % 256) :=
  ⟨rfl, rfl, rfl, rfl, rfl⟩

/-- The bytes of a two-byte-opcode rel32 encoding, by position. -/
theorem getD_cons_cons_le32 (op1 op2 w : Nat) :
    ((op1 :: op2 :: le32 w).getD 0 0 = op1) ∧ ((op1 :: op2 :: le32 w).getD 1 0 = op2) ∧
    ((op1 :: op2 :: le32 w).getD 2 0 = w % 256) ∧
    ((op1 :: op2 :: le32 w).getD 3 0 = w / 256 % 256) ∧
    ((op1 :: op2 :: le32 w).getD 4 0 = w / 65536 % 256) ∧
    ((op1 :: op2 :: le32 w).getD 5 0 = w / 16777216 % 256) :=
  ⟨rfl, rfl, rfl, rfl, rfl, rfl⟩

/-- Decoding a 5-byte `opcode + rel32` encoding produced by `addr_offset 5`
recovers the destination address. -/
theorem decodeEncodedRel32Five (fromA toA op : Nat) (hf : fromA < U32MOD)
    (ht : toA < U32MOD) (hop : op = 0xE8 ∨ op = 0xE9) :
    get_branch_target (listMem fromA (op :: addr_offset 5 fromA toA)) fromA = .ok toA := by
  have hmem0 : listMem fromA (op :: addr_offset 5 fromA toA) fromA = op := by
    unfold listMem
    rw [Nat.sub_self]
    rfl
  simp only [get_branch_target, hmem0, if_pos hop]
  refine congrArg Except.ok ?_
  unfold get_absolute_from_rel32
  have e1 : fromA + 5 - 4 = fromA + 1 := by omega
  rw [e1]
  unfold read32
  have a2 : fromA + 1 + 1 = fromA + 2 := by omega
  have a3 : fromA + 1 + 2 = fromA + 3 := by omega
  have a4 : fromA + 1 + 3 = fromA + 4 := by omega
  rw [a2, a3, a4]
  rw [show addr_offset 5 fromA toA = le32 (wrap32 ((toA : Int) - ((fromA + 5) % U32MOD))) from rfl]
  rw [listMem_at, listMem_at, listMem_at, listMem_at]
  rw [(getD_cons_le32 op _).2.1, (getD_cons_le32 op _).2.2.1,
      (getD_cons_le32 op _).2.2.2.1, (getD_cons_le32 op _).2.2.2.2]
  have hw : wrap32 ((toA : Int) - ((fromA + 5) % U32MOD)) < U32MOD := wrap32_lt _
  set w := wrap32 ((toA : Int) - ((fromA + 5) % U32MOD)) with hwdef
  have hsum : w % 256 + w / 256 % 256 * 256 + w / 65536 % 256 * 65536 +
      w / 16777216 % 256 * 16777216 = w := by
    unfold U32MOD at hw
    omega
  rw [hsum]
  simp only [wrap32, sext32, U32MOD] at hwdef hw hf ht ⊢
  split <;> omega

/-- Decoding a 6-byte `0x0F + condition + rel32` encoding produced by
`addr_offset 6` recovers the destination address. -/
theorem decodeEncodedRel32Six (fromA toA cond : Nat) (hf : fromA < U32MOD)
    (ht : toA < U32MOD) (hcond : cond ∈ nearCondSubOpcodes) :
    get_branch_target (listMem fromA (0x0F :: cond :: addr_offset 6 fromA toA)) fromA =
      .ok toA := by
  have hmem0 : listMem fromA (0x0F :: cond :: addr_offset 6 fromA toA) fromA = 0x0F := by
    unfold listMem
    rw [Nat.sub_self]
    rfl
  have hmem1 : listMem fromA (0x0F :: cond :: addr_offset 6 fromA toA) (fromA + 1) = cond := by
    rw [listMem_at]
    rfl
  simp only [get_branch_target, hmem0, hmem1]
  rw [if_pos trivial, if_pos hcond]
  refine congrArg Except.ok ?_
  unfold get_absolute_from_rel32
  have e1 : fromA + 6 - 4 = fromA + 2 := by omega
  rw [e1]
  unfold read32
  have a3 : fromA + 2 + 1 = fromA + 3 := by omega
  have a4 : fromA + 2 + 2 = fromA + 4 := by omega
  have a5 : fromA + 2 + 3 = fromA + 5 := by omega
  rw [a3, a4, a5]
  rw [show addr_offset 6 fromA toA = le32 (wrap32 ((toA : Int) - ((fromA + 6) % U32MOD))) from rfl]
  rw [listMem_at, listMem_at, listMem_at, listMem_at]
  rw [(getD_cons_cons_le32 0x0F cond _).2.2.1, (getD_cons_cons_le32 0x0F cond _).2.2.2.1,
      (getD_cons_cons_le32 0x0F cond _).2.2.2.2.1, (getD_cons_cons_le32 0x0F cond _).2.2.2.2.2]
  have hw : wrap32 ((toA : Int) - ((fromA + 6) % U32MOD)) < U32MOD := wrap32_lt _
  set w := wrap32 ((toA : Int) - ((fromA + 6) % U32MOD)) with hwdef
  have hsum : w % 256 + w / 256 % 256 * 256 + w / 65536 % 256 * 65536 +
      w / 16777216 % 256 * 16777216 = w := by
    unfold U32MOD at hw
    omega
  rw [hsum]
  simp only [wrap32, sext32, U32MOD] at hwdef hw hf ht ⊢
  split <;> omega

/-- C3.  Round-trip: for all 32-bit addresses `from` and `to`, decoding the
bytes produced by `call`, `jmp`, `jz`, `jl` or `jge` for `(from, to)`, placed
at address `from`, recovers the address `to`. -/
theorem c3_encoder_decoder_roundtrip (fromA toA : Nat) (hf : fromA < U32MOD)
    (ht : toA < U32MOD) :
    get_branch_target (listMem fromA (call fromA toA)) fromA = .ok toA ∧
    get_branch_target (listMem fromA (jmp fromA toA)) fromA = .ok toA ∧
    get_branch_target (listMem fromA (jz fromA toA)) fromA = .ok toA ∧
    get_branch_target (listMem fromA (jl fromA toA)) fromA = .ok toA ∧
    get_branch_target (listMem fromA (jge fromA toA)) fromA = .ok toA := by
  refine ⟨?_, ?_, ?_, ?_, ?_⟩
  · rw [call]
    exact decodeEncodedRel32Five fromA toA 0xE8 hf ht (Or.inl rfl)
  · rw [jmp]
    exact decodeEncodedRel32Five fromA toA 0xE9 hf ht (Or.inr rfl)
  · rw [jz, cond_jmp]
    exact decodeEncodedRel32Six fromA toA 0x84 hf ht (by decide)
  · rw [jl, cond_jmp]
    exact decodeEncodedRel32Six fromA toA 0x8C hf ht (by decide)
  · rw [jge, cond_jmp]
    exact decodeEncodedRel32Six fromA toA 0x8D hf ht (by decide)

/-- Witness for C3: the round-trip at the concrete pair
`from = 0x80000000`, `to = 0x80000010`. -/
theorem c3_encoder_decoder_roundtrip_witness :
    get_branch_target (listMem 0x80000000 (call 0x80000000 0x80000010)) 0x80000000 =
      .ok 0x80000010 ∧
    get_branch_target (listMem 0x80000000 (jmp 0x80000000 0x80000010)) 0x80000000 =
      .ok 0x80000010 ∧
    get_branch_target (listMem 0x80000000 (jz 0x80000000 0x80000010)) 0x80000000 =
      .ok 0x80000010 ∧
    get_branch_target (listMem 0x80000000 (jl 0x80000000 0x80000010)) 0x80000000 =
      .ok 0x80000010 ∧
    get_branch_target (listMem 0x80000000 (jge 0x80000000 0x80000010)) 0x80000000 =
      .ok 0x80000010 :=
  c3_encoder_decoder_roundtrip 0x80000000 0x80000010 (by decide) (by decide)

/-- `getD` on a mapped range evaluates the function. -/
theorem getD_map_range (n : Nat) (f : Nat → Nat) (i : Nat) (h : i < n) :
    ((List.range n).map f).getD i 0 = f i := by
  rw [List.getD_eq_getElem ((List.range n).map f) 0 (by simpa using h)]
  simp

/-- `writeBytes` preserves the buffer length. -/
theorem writeBytes_length (buf : List Nat) (off : Nat) (bs : List Nat) :
    (writeBytes buf off bs).length = buf.length := by
  simp [writeBytes]

/-- The byte of a `writeBytes` result at any in-bounds position. -/
theorem writeBytes_getD (buf : List Nat) (off : Nat) (bs : List Nat) (i : Nat)
    (h : i < buf.length) :
    (writeBytes buf off bs).getD i 0 =
      if off ≤ i ∧ i < off + bs.length then bs.getD (i - off) 0 else buf.getD i 0 := by
  unfold writeBytes
  exact getD_map_range buf.length _ i h

/-- The bytes `set_value` computes agree with the spec-level
`placeholderBytes`: reducing the field address modulo `2^32` before the
wraparound subtraction does not change the wrapped difference. -/
theorem set_value_bytes_eq_placeholderBytes (p : PatchPlaceholder) (bufAddr value : Nat) :
    (if p.is_relative then
        le32 (wrap32 ((value : Int) - ((bufAddr + p.offset + 4) % U32MOD)))
      else le32 value) = placeholderBytes bufAddr p value := by
  unfold placeholderBytes
  cases hrel : p.is_relative
  · rfl
  · refine congrArg le32 ?_
    unfold wrap32 U32MOD
    omega

/-- The second component of `set_value` is a `writeBytes` of the
spec-level bytes. -/
theorem set_value_snd (p : PatchPlaceholder) (bufAddr : Nat) (buf : List Nat) (v : Nat) :
    (p.set_value bufAddr buf v).2 = writeBytes buf p.offset (placeholderBytes bufAddr p v) := by
  unfold PatchPlaceholder.set_value
  rw [set_value_bytes_eq_placeholderBytes]

/-- `placeholderBytes` is always 4 bytes. -/
theorem placeholderBytes_length (bufAddr : Nat) (p : PatchPlaceholder) (v : Nat) :
    (placeholderBytes bufAddr p v).length = 4 := by
  unfold placeholderBytes
  cases p.is_relative <;> simp [le32]

/-- C4.  `set_value` writes exactly 4 bytes at the placeholder's offset:
the buffer keeps its length, every position outside `[offset, offset+4)`
is unchanged, and the 4 bytes written are the little-endian value (absolute
placeholder) or the little-endian 32-bit wraparound difference
`value − (bufferBaseAddress + offset + 4)` (relative placeholder).
In particular (last conjunct), binding the §8 example template with
`value = 1234` leaves `[0x68, 0xD2, 0x04, 0x00, 0x00]` as the last five
buffer bytes. -/
theorem c4_set_value_writes_field (p : PatchPlaceholder) (bufAddr value : Nat)
    (buf : List Nat) (hb : p.offset + 4 ≤ buf.length) :
    ((p.set_value bufAddr buf value).2).length = buf.length ∧
    (p.set_value bufAddr buf value).1 = { p with value := some value } ∧
    (∀ i, i < buf.length → i < p.offset ∨ p.offset + 4 ≤ i →
      ((p.set_value bufAddr buf value).2).getD i 0 = buf.getD i 0) ∧
    (∀ j, j < 4 →
      ((p.set_value bufAddr buf value).2).getD (p.offset + j) 0 =
        (placeholderBytes bufAddr p value).getD j 0) ∧
    (exampleBound.1.buf).drop 16 = [0x68, 0xD2, 0x04, 0x00, 0x00] := by
  refine ⟨?_, ?_, ?_, ?_, by decide⟩
  · rw [set_value_snd, writeBytes_length]
  · unfold PatchPlaceholder.set_value
    rfl
  · intro i hi hout
    rw [set_value_snd, writeBytes_getD _ _ _ _ hi, if_neg]
    rw [placeholderBytes_length]
    omega
  · intro j hj
    rw [set_value_snd, writeBytes_getD _ _ _ _ (by omega), if_pos, Nat.add_sub_cancel_left]
    rw [placeholderBytes_length]
    omega

/-- Witness for C4: a concrete absolute placeholder at offset 1 of a
6-byte buffer, set to `0x01020304`. -/
theorem c4_set_value_writes_field_witness :
    (((PatchPlaceholder.mk 1 false none).set_value 0x2000 [9, 9, 9, 9, 9, 9]
        0x01020304).2).getD (1 + 2) 0 =
      (placeholderBytes 0x2000 (PatchPlaceholder.mk 1 false none) 0x01020304).getD 2 0 :=
  (c4_set_value_writes_field (PatchPlaceholder.mk 1 false none) 0x2000 0x01020304
    [9, 9, 9, 9, 9, 9] (by decide)).2.2.2.1 2 (by decide)

/-- C2 (counterexample).  The claim places the `other` placeholder at
buffer offset 13 and the `value` placeholder at offset 19; the compiled
table of the §8 example template has neither. -/
theorem c2_claimed_offsets_refuted :
    List.lookup "other" exampleFieldTable ≠ some (13, true) ∧
    List.lookup "value" exampleFieldTable ≠ some (19, false) := by
  refine ⟨by decide, by decide⟩

/-- C2 (amended).  Compiling the §8 example template yields the five
components below, a 21-byte buffer, `equal` relative at offset 7, `other`
relative at offset 12, and `value` absolute at offset 17 immediately
preceded by the literal byte `0x68` at offset 16. -/
theorem c2_template_compile_layout :
    parseComponents exampleTokens [] =
      some [PatchComponent.Bytes [0x29, 0xD8, 0x38, 0xF4, 0x04],
        .Rel32 [0x0F, 0x84] "equal", .Rel32 [0xE9] "other",
        .Bytes [0x68], .Imm32 "value"] ∧
    examplePatchSize = 21 ∧
    exampleFieldTable =
      [("equal", 7, true), ("other", 12, true), ("value", 17, false)] ∧
    exampleInitBytes.length = 21 ∧
    exampleInitBytes.getD 16 0 = 0x68 := by
  refine ⟨by decide, by decide, by decide, by decide, by decide⟩

/-- `writePlaceholders` never changes the buffer length. -/
theorem writePlaceholders_len (bufAddr : Nat) :
    ∀ (ps : List PatchPlaceholder) (vs : List Nat) (buf : List Nat),
      ((writePlaceholders bufAddr ps vs buf).2).length = buf.length := by
  intro ps
  induction ps with
  | nil => intro vs buf; simp [writePlaceholders]
  | cons p ps ih =>
    intro vs buf
    cases vs with
    | nil => simp [writePlaceholders]
    | cons v vs =>
      simp only [writePlaceholders]
      rw [ih, set_value_snd, writeBytes_length]

/-- A position outside the 4-byte fields of every written placeholder is
left unchanged by `writePlaceholders`. -/
theorem writePlaceholders_untouched (bufAddr : Nat) :
    ∀ (ps : List PatchPlaceholder) (vs : List Nat) (buf : List Nat) (k : Nat),
      k < buf.length → (∀ p ∈ ps, k < p.offset ∨ p.offset + 4 ≤ k) →
      ((writePlaceholders bufAddr ps vs buf).2).getD k 0 = buf.getD k 0 := by
  intro ps
  induction ps with
  | nil => intro vs buf k _ _; simp [writePlaceholders]
  | cons p ps ih =>
    intro vs buf k hk hout
    cases vs with
    | nil => simp [writePlaceholders]
    | cons v vs =>
      simp only [writePlaceholders]
      rw [ih vs _ k (by rw [set_value_snd, writeBytes_length]; exact hk)
        (fun q hq => hout q (List.mem_cons_of_mem p hq))]
      rw [set_value_snd, writeBytes_getD _ _ _ _ hk, if_neg]
      rw [placeholderBytes_length]
      have := hout p (List.mem_cons_self p ps)
      omega

/-- After `writePlaceholders`, the field of each placeholder holds its own
value's bytes, provided the fields are pairwise disjoint and in bounds. -/
theorem writePlaceholders_field (bufAddr : Nat) :
    ∀ (ps : List PatchPlaceholder) (vs : List Nat) (buf : List Nat) (k : Nat),
      k < ps.length → vs.length = ps.length →
      (∀ p ∈ ps, p.offset + 4 ≤ buf.length) → List.Pairwise disjointFields ps →
      ∀ j, j < 4 →
        ((writePlaceholders bufAddr ps vs buf).2).getD
            ((ps.getD k ⟨0, false, none⟩).offset + j) 0 =
          (placeholderBytes bufAddr (ps.getD k ⟨0, false, none⟩) (vs.getD k 0)).getD j 0 := by
  intro ps
  induction ps with
  | nil =>
    intro vs buf k hk
    simp at hk
  | cons p ps ih =>
    intro vs buf k hk hlen hb hdisj j hj
    cases vs with
    | nil => simp at hlen
    | cons v vs =>
      rw [List.pairwise_cons] at hdisj
      have hplen : p.offset + 4 ≤ buf.length := hb p (List.mem_cons_self p ps)
      cases k with
      | zero =>
        simp only [List.getD_cons_zero, writePlaceholders]
        rw [writePlaceholders_untouched bufAddr ps vs _ (p.offset + j)
          (by rw [set_value_snd, writeBytes_length]; omega)
          (fun q hq => by rcases hdisj.1 q hq with hle | hle <;> omega)]
        rw [set_value_snd, writeBytes_getD _ _ _ _ (by omega), if_pos, Nat.add_sub_cancel_left]
        rw [placeholderBytes_length]
        omega
      | succ k =>
        simp only [List.getD_cons_succ, writePlaceholders]
        refine ih vs _ k (by simpa using hk) (by simpa using hlen) ?_ hdisj.2 j hj
        intro q hq
        rw [set_value_snd, writeBytes_length]
        exact hb q (List.mem_cons_of_mem p hq)

/-- C7.  `bind` writes every placeholder's field into the buffer (each
field ends up holding its own value's bytes — no ordering constraint among
disjoint placeholders), then asks the protection oracle to make the buffer
executable: a success returns the buffer's entry address, and a protection
failure is returned to the caller unchanged. -/
theorem c7_bind_writes_then_protects
    (unprot : Nat → Nat → Except ProtectionError Nat) (bufAddr : Nat)
    (inst : PatchInstance) (values : List Nat)
    (hlen : values.length = inst.placeholders.length)
    (hb : ∀ p ∈ inst.placeholders, p.offset + 4 ≤ inst.buf.length)
    (hdisj : List.Pairwise disjointFields inst.placeholders) :
    (∀ k, k < inst.placeholders.length → ∀ j, j < 4 →
      ((inst.bind unprot bufAddr values).1.buf).getD
          ((inst.placeholders.getD k ⟨0, false, none⟩).offset + j) 0 =
        (placeholderBytes bufAddr (inst.placeholders.getD k ⟨0, false, none⟩)
          (values.getD k 0)).getD j 0) ∧
    (∀ old, unprot bufAddr inst.buf.length = .ok old →
      (inst.bind unprot bufAddr values).2 = .ok bufAddr) ∧
    (∀ e, unprot bufAddr inst.buf.length = .error e →
      (inst.bind unprot bufAddr values).2 = .error e) := by
  refine ⟨?_, ?_, ?_⟩
  · intro k hk j hj
    exact writePlaceholders_field bufAddr inst.placeholders values inst.buf k hk hlen hb
      hdisj j hj
  · intro old h
    unfold PatchInstance.bind
    rw [h]
  · intro e h
    unfold PatchInstance.bind
    rw [h]

/-- Witness for C7: binding the example instance under a succeeding
protection oracle returns the buffer's entry address, and the `value`
field (offset 17) holds `1234` little-endian. -/
theorem c7_bind_writes_then_protects_witness :
    (exampleInstance.bind (fun _ _ => .ok 0x04) exampleBufAddr
        [0x80000000, 0x80000080, 1234]).2 = .ok exampleBufAddr ∧
    ((exampleInstance.bind (fun _ _ => .ok 0x04) exampleBufAddr
        [0x80000000, 0x80000080, 1234]).1.buf).getD
        ((exampleInstance.placeholders.getD 2 ⟨0, false, none⟩).offset + 0) 0 =
      (placeholderBytes exampleBufAddr
        (exampleInstance.placeholders.getD 2 ⟨0, false, none⟩) 1234).getD 0 0 :=
  ⟨(c7_bind_writes_then_protects (fun _ _ => .ok 0x04) exampleBufAddr exampleInstance
      [0x80000000, 0x80000080, 1234] (by decide) (by decide) (by decide)).2.1 0x04 rfl,
   (c7_bind_writes_then_protects (fun _ _ => .ok 0x04) exampleBufAddr exampleInstance
      [0x80000000, 0x80000080, 1234] (by decide) (by decide) (by decide)).1 2 (by decide)
      0 (by decide)⟩

/-- C9.  `bind` is not atomic with respect to the buffer: the placeholder
writes happen before the protection call, so under a failing protection
oracle `bind` returns the error, yet the returned instance is exactly the
one the succeeding path produces — buffer bytes written and placeholder
values updated.  Concretely (last conjuncts), the example bind under a
failing oracle reports error code 5 while its buffer differs from the
initial bytes and its `value` placeholder records 1234. -/
theorem c9_bind_not_atomic (e : ProtectionError) (bufAddr : Nat)
    (inst : PatchInstance) (values : List Nat) :
    (inst.bind (fun _ _ => .error e) bufAddr values).2 = .error e ∧
    (inst.bind (fun _ _ => .error e) bufAddr values).1 =
      (inst.bind (fun _ _ => .ok 0) bufAddr values).1 ∧
    (exampleBoundFail.2 = .error ⟨5⟩ ∧
      exampleBoundFail.1.buf ≠ exampleInitBytes ∧
      (exampleBoundFail.1.placeholders.getD 2 ⟨0, false, none⟩).value = some 1234) :=
  ⟨rfl, rfl, by decide, by decide, by decide⟩

/-- Witness for C9: the error from the failing oracle is returned for the
example instance. -/
theorem c9_bind_not_atomic_witness :
    (exampleInstance.bind (fun _ _ => .error ⟨7⟩) 0
        [0x80000000, 0x80000080, 1234]).2 = .error ⟨7⟩ :=
  (c9_bind_not_atomic ⟨7⟩ 0 exampleInstance [0x80000000, 0x80000080, 1234]).1

/-- C6.  A leading byte outside the supported set yields a single-byte
opcode error carrying that byte and the address; a `0x0F` prefix followed
by a byte outside `0x80`–`0x8F` yields a two-byte opcode error carrying
both bytes and the address. -/
theorem c6_decoder_error_cases :
    (∀ (mem : Nat → Nat) (a : Nat), mem a < 256 →
        mem a ∉ ([0xE8, 0xE9, 0x9A, 0xEA, 0x0F] ++ shortJumpOpcodes) →
        get_branch_target mem a = .error (.SingleByteOpcode a (mem a))) ∧
    (∀ (mem : Nat → Nat) (a : Nat), mem a = 0x0F → mem (a + 1) < 256 →
        ¬(0x80 ≤ mem (a + 1) ∧ mem (a + 1) ≤ 0x8F) →
        get_branch_target mem a = .error (.DoubleByteOpcode a 0x0F (mem (a + 1)))) := by
  constructor
  · intro mem a _ hnot
    have h1 : ¬(mem a = 0xE8 ∨ mem a = 0xE9) := by
      rintro (h | h) <;> exact hnot (by rw [h]; decide)
    have h2 : ¬(mem a = 0x9A ∨ mem a = 0xEA) := by
      rintro (h | h) <;> exact hnot (by rw [h]; decide)
    have h3 : mem a ∉ shortJumpOpcodes := fun h => hnot (List.mem_append_right _ h)
    have h4 : ¬(mem a = 0x0F) := fun h => hnot (by rw [h]; decide)
    simp only [get_branch_target]
    rw [if_neg h1, if_neg h2, if_neg h3, if_neg h4]
  · intro mem a h0F hlt hrange
    have hnotmem : mem (a + 1) ∉ nearCondSubOpcodes := by
      simp only [nearCondSubOpcodes, List.mem_cons, List.not_mem_nil, or_false]
      omega
    simp only [get_branch_target, h0F]
    rw [if_pos trivial, if_neg hnotmem]
    rw [if_neg (by decide), if_neg (by decide), if_neg (by decide)]

/-- Witness for C6: the byte `0xF4` at address `0x1234`, and the pair
`0x0F 0x90` at address 7. -/
theorem c6_decoder_error_cases_witness :
    get_branch_target (fun _ => 0xF4) 0x1234 =
      .error (.SingleByteOpcode 0x1234 0xF4) ∧
    get_branch_target (fun i => if i = 7 then 0x0F else 0x90) 7 =
      .error (.DoubleByteOpcode 7 0x0F 0x90) :=
  ⟨c6_decoder_error_cases.1 (fun _ => 0xF4) 0x1234 (by decide) (by decide),
   c6_decoder_error_cases.2 (fun i => if i = 7 then 0x0F else 0x90) 7 (by decide)
     (by decide) (by decide)⟩

/-- When every result slot is already filled, the find-bytes update map
keeps each slot unchanged. -/
theorem findBytesStep_keep_aux (mem : Nat → Nat) (base size : Nat) :
    ∀ (patterns : List (List Nat)) (addrs : List (Option Nat)),
      patterns.length = addrs.length → addrs.all Option.isSome = true →
      (patterns.zip addrs).map (fun pa =>
        match pa.2 with
        | some x => some x
        | none => (memFind (regionBytes mem base size) pa.1).map
            (fun off => base + off)) = addrs := by
  intro patterns
  induction patterns with
  | nil =>
    intro addrs hlen _
    cases addrs with
    | nil => rfl
    | cons a as => simp at hlen
  | cons p ps ih =>
    intro addrs hlen hall
    cases addrs with
    | nil => simp at hlen
    | cons a as =>
      simp only [List.all_cons, Bool.and_eq_true] at hall
      cases a with
      | none => simp [Option.isSome] at hall
      | some x =>
        simp only [List.zip_cons_cons, List.map_cons]
        rw [ih as (by simpa using hlen) hall.2]

/-- C8 (counterexample).  The claim says an empty pattern list returns an
empty result set without performing any region query; on the concrete
two-region oracle the search does query a region (the trace is nonempty),
though the result set is indeed empty. -/
theorem c8_empty_pattern_list_still_queries :
    (find_bytes_in_ranges memAB q1 8 [] none [(0x1000, 0x1020)]).2 ≠ [] ∧
    (find_bytes_in_ranges memAB q1 8 [] none [(0x1000, 0x1020)]).1 = [] := by
  refine ⟨by decide, by decide⟩

/-- C8 (amended).  Short-circuiting: (1) a qualifying region scan that
reports every slot filled makes the walk return at once — that region's
query is the last one; (2) a short-circuited walk makes the whole search
return without querying any later range; (3) once every slot is filled the
find-bytes scan leaves the slots unchanged and reports completion, so for
one or more patterns no region is queried after the scan that resolves the
last pattern; (4) concretely, a single-pattern search over regions R1 and
R2 resolves in R1 and never queries R2; (5) an empty pattern list returns
an empty result set after the first qualifying region query — not zero
queries; (6) a pattern never found yields a `none` slot, not an error. -/
theorem c8_short_circuit_amended :
    (∀ (mem : Nat → Nat) (patterns : List (List Nat))
        (query : Nat → Option MemRegion) (prot fuel addr endAddr : Nat)
        (results : List (Option Nat)) (info : MemRegion),
      addr < endAddr → query addr = some info → info.state = MEM_COMMIT →
      protContains prot info.protect = true →
      (findBytesStep mem patterns addr info.size results).2 = true →
      walkRange query prot (findBytesStep mem patterns) (fuel + 1) addr endAddr results =
        ((findBytesStep mem patterns addr info.size results).1, true, [addr])) ∧
    (∀ (query : Nat → Option MemRegion) (prot : Nat)
        (sf : Nat → Nat → List (Option Nat) → List (Option Nat) × Bool)
        (fuel s e : Nat) (rest : List (Nat × Nat)) (results r : List (Option Nat))
        (t : List Nat),
      walkRange query prot sf fuel s e results = (r, true, t) →
      searchRanges query prot sf fuel ((s, e) :: rest) results = (r, t)) ∧
    (∀ (mem : Nat → Nat) (patterns : List (List Nat)) (base size : Nat)
        (addrs : List (Option Nat)),
      patterns.length = addrs.length → addrs.all Option.isSome = true →
      findBytesStep mem patterns base size addrs = (addrs, true)) ∧
    find_bytes_in_ranges memAB q1 8 [[0xAB]] none [(0x1000, 0x1020)] =
      ([some 0x1008], [0x1000]) ∧
    find_bytes_in_ranges memAB q1 8 [] none [(0x1000, 0x1020)] = ([], [0x1000]) ∧
    find_bytes_in_ranges (fun _ => 0) q1 8 [[0xCD]] none [(0x1000, 0x1020)] =
      ([none], [0x1000, 0x1010]) := by
  refine ⟨?_, ?_, ?_, by decide, by decide, by decide⟩
  · intro mem patterns query prot fuel addr endAddr results info hlt hq hstate hprot hfound
    simp only [walkRange]
    rw [if_pos hlt, hq]
    simp only [hstate, hprot, hfound]
    simp
  · intro query prot sf fuel s e rest results r t h
    simp only [searchRanges, h]
    rw [if_pos trivial]
  · intro mem patterns base size addrs hlen hall
    simp only [findBytesStep]
    rw [findBytesStep_keep_aux mem base size patterns addrs hlen hall, hall]

/-- Witness for C8: the amended short-circuit facts at the concrete
single-pattern scenario. -/
theorem c8_short_circuit_amended_witness :
    walkRange q1 READABLE_PROTECTION (findBytesStep memAB [[0xAB]]) 8 0x1000 0x1020
        [some 0x1008] = ([some 0x1008], true, [0x1000]) ∧
    searchRanges q1 READABLE_PROTECTION (findBytesStep memAB [[0xAB]]) 8
        [(0x1000, 0x1020), (0x2000, 0x3000)] [none] = ([some 0x1008], [0x1000]) ∧
    findBytesStep memAB [[0xAB]] 0x1000 0x10 [some 0x55] = ([some 0x55], true) :=
  ⟨c8_short_circuit_amended.1 memAB [[0xAB]] q1 READABLE_PROTECTION 7 0x1000 0x1020
      [some 0x1008] ⟨0x1000, 0x10, MEM_COMMIT, PAGE_READWRITE⟩ (by decide) (by decide)
      (by decide) (by decide) (by decide),
   c8_short_circuit_amended.2.1 q1 READABLE_PROTECTION (findBytesStep memAB [[0xAB]]) 8
      0x1000 0x1020 [(0x2000, 0x3000)] [none] [some 0x1008] [0x1000] (by decide),
   c8_short_circuit_amended.2.2.1 memAB [[0xAB]] 0x1000 0x10 [some 0x55] (by decide)
      (by decide)⟩

/-- C10.  A failed region query (`VirtualQuery` returning 0) silently ends
the walk of that range with the slots untouched and no error: (1) the walk
returns `(results, false)` recording only the failed query; (2) the outer
loop then simply moves on to the remaining ranges; (3) concretely, a
search whose oracle always fails returns the same `[none]` result as a
search over a healthy oracle whose memory simply lacks the pattern — a
query failure is indistinguishable from genuine absence in the results. -/
theorem c10_query_failure_silent :
    (∀ (mem : Nat → Nat) (patterns : List (List Nat))
        (query : Nat → Option MemRegion) (prot fuel addr endAddr : Nat)
        (results : List (Option Nat)),
      addr < endAddr → query addr = none →
      walkRange query prot (findBytesStep mem patterns) (fuel + 1) addr endAddr results =
        (results, false, [addr])) ∧
    (∀ (query : Nat → Option MemRegion) (prot : Nat)
        (sf : Nat → Nat → List (Option Nat) → List (Option Nat) × Bool)
        (fuel s e : Nat) (rest : List (Nat × Nat)) (results r : List (Option Nat))
        (t : List Nat),
      walkRange query prot sf fuel s e results = (r, false, t) →
      searchRanges query prot sf fuel ((s, e) :: rest) results =
        ((searchRanges query prot sf fuel rest r).1,
          t ++ (searchRanges query prot sf fuel rest r).2)) ∧
    ((find_bytes_in_ranges memAB (fun _ => none) 8 [[0xAB]] none
        [(0x1000, 0x1020)]).1 = [none] ∧
      (find_bytes_in_ranges (fun _ => 0) q1 8 [[0xAB]] none
        [(0x1000, 0x1020)]).1 = [none]) := by
  refine ⟨?_, ?_, by decide, by decide⟩
  · intro mem patterns query prot fuel addr endAddr results hlt hq
    simp only [walkRange]
    rw [if_pos hlt, hq]
  · intro query prot sf fuel s e rest results r t h
    simp only [searchRanges, h]
    rw [if_neg (by decide)]

/-- Witness for C10: the walk under an always-failing oracle, and the
outer loop moving past the dead first range. -/
theorem c10_query_failure_silent_witness :
    walkRange (fun _ => none) READABLE_PROTECTION (findBytesStep memAB [[0xAB]]) 8
        0x1000 0x1020 [none] = ([none], false, [0x1000]) ∧
    searchRanges (fun _ => none) READABLE_PROTECTION (findBytesStep memAB [[0xAB]]) 8
        [(0x1000, 0x1020), (0x3000, 0x3010)] [none] =
      (([none] : List (Option Nat)), [0x1000, 0x3000]) :=
  ⟨c10_query_failure_silent.1 memAB [[0xAB]] (fun _ => none) READABLE_PROTECTION 7
      0x1000 0x1020 [none] (by decide) rfl,
   by
    rw [c10_query_failure_silent.2.1 (fun _ => none) READABLE_PROTECTION
      (findBytesStep memAB [[0xAB]]) 8 0x1000 0x1020 [(0x3000, 0x3010)] [none] [none]
      [0x1000] (by decide)]
    decide⟩
